import Mathlib

/-!
Verification of the Eyelocater annotation-pipeline core (`eyelocater_core.py`).

The Python module is shallowly embedded below.  Python strings that are
processed character by character (gene lists, output-path patterns) are
modelled as `List Char`; strings that are only compared or concatenated
(paths, backend names, error messages) use Lean `String`.  The module
defines a single exception class `AnnotationError`; it is embedded as the
one-constructor inductive `CoreErr`.  External capabilities (the h5ad
reader, `normalize_total`, `log1p`, `single_r`) are passed in as explicit
oracle functions returning `Except String _`, mirroring calls that may
raise; the pure control flow around them is translated literally from the
source.  Matplotlib side effects are modelled by the lists of output file
paths that `_plot_and_save` reports.
-/

/-- The single exception class of `eyelocater_core.py`
(`class AnnotationError(Exception)`). -/
inductive CoreErr where
  | AnnotationError (msg : String)
deriving DecidableEq, Repr

/-- `CLUSTER_TO_LOCATION` from `eyelocater_core.py`, verbatim: the static
mapping of phenograph cluster ids to anatomical locations. -/
def CLUSTER_TO_LOCATION : List (String × String) :=
  [("1", "lens"), ("2", "lens"), ("3", "lens"), ("4", "lens"),
   ("5", "unknown"), ("6", "retina"), ("7", "lens"), ("8", "sclera & choroid"),
   ("9", "lens"), ("10", "retina"), ("11", "retina"), ("12", "iris & ciliary"),
   ("13", "sclera & choroid"), ("14", "iris & ciliary"), ("15", "retina"),
   ("16", "retina"), ("17", "cornea"), ("18", "cornea"), ("19", "cornea"),
   ("20", "retina"), ("21", "cornea"), ("22", "retina"),
   ("23", "sclera & choroid"), ("24", "sclera & choroid"), ("25", "retina"),
   ("26", "iris & ciliary"), ("27", "lens"), ("28", "retina"), ("29", "retina"),
   ("30", "unknown"), ("31", "optic nerve"), ("32", "retina"), ("33", "retina"),
   ("34", "unknown"), ("35", "lens"), ("36", "iris & ciliary"),
   ("37", "iris & ciliary"), ("38", "iris & ciliary"), ("39", "unknown"),
   ("40", "unknown"), ("41", "unknown"), ("42", "sclera & choroid"),
   ("43", "retina"), ("44", "unknown"), ("45", "unknown"), ("46", "unknown"),
   ("47", "unknown"), ("48", "unknown"), ("49", "unknown"), ("50", "unknown")]

/-- `res["group"].map(CLUSTER_TO_LOCATION)` applied to one cluster id: a
dictionary lookup; a missing key yields `none` (pandas `NaN`), which is
never equal to a requested region. -/
def clusterLocation (group : String) : Option String :=
  CLUSTER_TO_LOCATION.lookup group

/-- One row of the phenograph clustering result table
(`data.tl.result["phenograph"]`): a cluster-group id and a cell/bin id. -/
structure PhenoRow where
  group : String
  bins : String
deriving DecidableEq, Repr

/-- The main Stereo dataset handle, reduced to what the pipeline reads and
mutates: the list of cell ids and the optional phenograph result table. -/
structure MainData where
  cells : List String
  phenograph : Option (List PhenoRow)
deriving DecidableEq, Repr

/-- `data.tl.filter_cells(cell_list=bins)`: keep exactly the cells whose id
occurs in the given list. -/
def filter_cells (d : MainData) (cellList : List String) : MainData :=
  { d with cells := d.cells.filter (fun c => cellList.contains c) }

/-- `_filter_by_region` from `eyelocater_core.py`: no-op for "eye",
rejection of invalid region names, failure when the phenograph result is
absent, and otherwise restriction to the cells whose cluster maps to the
requested region. -/
def filter_by_region (d : MainData) (region : String) : Except CoreErr MainData :=
  if region = "eye" then
    .ok d
  else if region = "retina" ∨ region = "cornea" then
    match d.phenograph with
    | none =>
        .error (.AnnotationError
          ("Could not find \x27phenograph\x27 results in data.tl.result. " ++
           "Make sure phenograph clustering has been run."))
    | some res =>
        let bins :=
          (res.filter (fun row => clusterLocation row.group == some region)).map
            PhenoRow.bins
        .ok (filter_cells d bins)
  else
    .error (.AnnotationError
      ("Invalid region \x27" ++ region ++ "\x27. " ++
       "Expected one of: \x27eye\x27, \x27retina\x27, \x27cornea\x27."))

/-- `_load_main_data`: read the main container via the io capability and
wrap any failure in `AnnotationError` with the path and cause. -/
def load_main_data (ioRead : String → Except String MainData) (path : String) :
    Except CoreErr MainData :=
  match ioRead path with
  | .error e =>
      .error (.AnnotationError ("Error loading main data file \x27" ++ path ++ "\x27: " ++ e))
  | .ok d => .ok d

/-- The reference dataset handle: a marker recording whether the reference
was already normalized/log-transformed before loading, and the list of
preprocessing operations applied to it (appended by the
`normalize_total` / `log1p` oracles). -/
structure RefData where
  processed : Bool
  ops : List String
deriving DecidableEq, Repr

/-- `_load_and_preprocess_ref`: read the reference container, then apply
`ref.tl.normalize_total()` followed by `ref.tl.log1p()` unconditionally;
a read failure and a preprocessing failure are each wrapped in
`AnnotationError` with the messages of the source. -/
def load_and_preprocess_ref
    (ioRead : String → Except String RefData)
    (normalizeTotal log1p : RefData → Except String RefData)
    (path : String) : Except CoreErr RefData :=
  match ioRead path with
  | .error e =>
      .error (.AnnotationError ("Error loading reference file \x27" ++ path ++ "\x27: " ++ e))
  | .ok ref =>
      match (match normalizeTotal ref with
             | .error e => .error e
             | .ok r1 => log1p r1 : Except String RefData) with
      | .error e =>
          .error (.AnnotationError ("Error during reference data preprocessing: " ++ e))
      | .ok r2 => .ok r2

/-- Oracle for `ref.tl.normalize_total()` that records the operation. -/
def normalizeTotalOp (r : RefData) : Except String RefData :=
  .ok { r with ops := r.ops ++ ["normalize_total"] }

/-- Oracle for `ref.tl.log1p()` that records the operation. -/
def log1pOp (r : RefData) : Except String RefData :=
  .ok { r with ops := r.ops ++ ["log1p"] }

/-- Python `pat in s` for the character lists `pat` and `s`: does `pat`
occur at the start of `s`? -/
def startsWith : List Char → List Char → Bool
  | [], _ => true
  | _ :: _, [] => false
  | p :: ps, c :: cs => p == c && startsWith ps cs

/-- Python `pat in s`: does `pat` occur contiguously somewhere in `s`? -/
def isSubList (pat : List Char) : List Char → Bool
  | [] => pat.isEmpty
  | c :: rest => startsWith pat (c :: rest) || isSubList pat rest

/-- Python substring containment test `pat in s` on Lean strings. -/
def containsSub (s pat : String) : Bool :=
  isSubList pat.data s.data

/-- Python `str.lower()`, modelled character by character. -/
def pyLower (s : String) : String := ⟨s.data.map Char.toLower⟩

/-- The recognized backend-unavailable failure signature special-cased by
`_run_singler` (stereo's "Your env don't have GPU related RAPIDS packages"
message). -/
def gpuSignature : String := "don\x27t have GPU related RAPIDS packages"

/-- `_run_singler` from `eyelocater_core.py`.  `call m` is the result of
`data.tl.single_r(..., method=m)`; the returned list is the `tried`
variable of the source (the backends attempted, in order), and the
`Except` value is the returned method or the raised `AnnotationError`. -/
def run_singler (call : String → Except String Unit) (prefer_method : String) :
    List String × Except CoreErr String :=
  match call prefer_method with
  | .ok _ => ([prefer_method], .ok prefer_method)
  | .error msg =>
    if containsSub msg gpuSignature && (pyLower prefer_method == "rapids") then
      match call "cpu" with
      | .ok _ => ([prefer_method, "cpu"], .ok "cpu")
      | .error _ =>
          ([prefer_method, "cpu"],
           .error (.AnnotationError
             ("single_r failed with both \x27rapids\x27 and \x27cpu\x27. Methods tried: [\x27" ++
              prefer_method ++ "\x27, \x27cpu\x27]")))
    else
      ([prefer_method],
       .error (.AnnotationError
         ("Error during annotation with method=" ++ prefer_method ++ ". Message: " ++ msg)))

/-- The delimiter class of `re.split(r"[;,]", gene_str)`. -/
def isDelim (c : Char) : Bool := c == ',' || c == ';'

/-- Python `re.split` on a character class: cut the character list at every
delimiter occurrence, keeping empty pieces (as `re.split` does). -/
def splitBy (p : Char → Bool) : List Char → List (List Char)
  | [] => [[]]
  | c :: rest =>
    if p c then [] :: splitBy p rest
    else
      match splitBy p rest with
      | [] => [[c]]
      | t :: ts => (c :: t) :: ts

/-- `re.split(r"[;,]", s)` from `_parse_gene_list`. -/
def splitDelim (s : List Char) : List (List Char) := splitBy isDelim s

/-- Python `str.strip()`, leading side: drop leading whitespace. -/
def trimLeft (l : List Char) : List Char := l.dropWhile Char.isWhitespace

/-- Python `str.strip()`, trailing side: drop trailing whitespace. -/
def trimRight : List Char → List Char
  | [] => []
  | c :: rest =>
    let r := trimRight rest
    if r.isEmpty then (if c.isWhitespace then [] else [c]) else c :: r

/-- Python `str.strip()`: drop leading and trailing whitespace. -/
def trimChars (l : List Char) : List Char := trimRight (trimLeft l)

/-- The accumulation loop of `_parse_gene_list`: strip each piece, skip
empties, skip already-seen names, and keep first occurrences in order. -/
def collectGenes (seen : List (List Char)) : List (List Char) → List (List Char)
  | [] => []
  | p :: ps =>
    let g := trimChars p
    if g = [] then collectGenes seen ps
    else if g ∈ seen then collectGenes seen ps
    else g :: collectGenes (g :: seen) ps

/-- `_parse_gene_list` from `eyelocater_core.py`: `None` or the empty
string yield `[]`; otherwise split on commas/semicolons, strip, drop
empties, deduplicate preserving first-seen order. -/
def parse_gene_list (gene_str : Option (List Char)) : List (List Char) :=
  match gene_str with
  | none => []
  | some s => if s = [] then [] else collectGenes [] (splitDelim s)

/-- Python `sep.join(parts)` generalised to character lists. -/
def joinWith (sep : List Char) : List (List Char) → List Char
  | [] => []
  | [x] => x
  | x :: y :: rest => x ++ sep ++ joinWith sep (y :: rest)

/-- Python `pattern.replace("*", g)`: substitute `g` for every occurrence
of the one-character wildcard. -/
def replaceStar (g : List Char) : List Char → List Char
  | [] => []
  | c :: rest => if c = '*' then g ++ replaceStar g rest else c :: replaceStar g rest

/-- Cutting a pattern at every wildcard, used to state what
`replaceStar` computes. -/
def splitStar (l : List Char) : List (List Char) := splitBy (fun c => c == '*') l

/-- The part after the last dot: `pattern.rsplit(".", 1)[1]`. -/
def rsplitExt (l : List Char) : List Char :=
  (l.reverse.takeWhile (fun c => c != '.')).reverse

/-- The part before the last dot: `pattern.rsplit(".", 1)[0]`. -/
def rsplitBase (l : List Char) : List Char :=
  ((l.reverse.dropWhile (fun c => c != '.')).drop 1).reverse

/-- The gene-plot output-path computation of `_plot_and_save`: substitute
the gene for the wildcard when one is present, otherwise insert `_gene`
before the last extension, otherwise append `_gene.pdf`. -/
def outGenePath (pattern g : List Char) : List Char :=
  if '*' ∈ pattern then replaceStar g pattern
  else if '.' ∈ pattern then
    rsplitBase pattern ++ '_' :: g ++ '.' :: rsplitExt pattern
  else pattern ++ '_' :: g ++ ".pdf".data

/-- Python `repr` of a list of strings, as used in the zero-valid-genes
error message of `_plot_and_save`. -/
def reprGeneList (gs : List (List Char)) : String :=
  "[" ++ String.intercalate ", " (gs.map (fun g => "\x27" ++ String.mk g ++ "\x27")) ++ "]"

/-- `_plot_and_save` from `eyelocater_core.py`, with matplotlib rendering
modelled by the returned `(cell files, gene files)` path lists: the cell
plot is saved for plot types "cell"/"both"; for "gene"/"both" an empty
parsed gene list is a logged soft skip, zero valid genes raise
`AnnotationError` (re-wrapped by the surrounding try/except of the
source), and each valid gene contributes one output path. -/
def plot_and_save (geneNames : List (List Char)) (plot_type : String)
    (gene : Option (List Char)) (gene_out_pattern : List Char) (out_pdf : List Char) :
    Except CoreErr (List (List Char) × List (List Char)) :=
  let cellFiles : List (List Char) :=
    if plot_type = "cell" ∨ plot_type = "both" then [out_pdf] else []
  if plot_type = "gene" ∨ plot_type = "both" then
    let genes := parse_gene_list gene
    if genes = [] then .ok (cellFiles, [])
    else
      let valid_genes := genes.filter (fun g => geneNames.contains g)
      let invalid_genes := genes.filter (fun g => !geneNames.contains g)
      if valid_genes = [] then
        .error (.AnnotationError
          ("Error generating or saving plots: No valid genes found among requested: " ++
           reprGeneList genes ++ ". Invalid genes: " ++ reprGeneList invalid_genes))
      else
        let pattern := if gene_out_pattern = [] then "spatial_scatter_*.pdf".data
                       else gene_out_pattern
        .ok (cellFiles, valid_genes.map (fun g => outGenePath pattern g))
  else .ok (cellFiles, [])

theorem splitBy_ne_nil (p : Char → Bool) (l : List Char) : splitBy p l ≠ [] := by
  cases l with
  | nil => simp [splitBy]
  | cons c rest =>
    simp only [splitBy]
    split
    · simp
    · split <;> simp

theorem mem_splitBy_noDelim (p : Char → Bool) (l : List Char) :
    ∀ t ∈ splitBy p l, ∀ c ∈ t, p c = false := by
  induction l with
  | nil => intro t ht; simp [splitBy] at ht; simp [ht]
  | cons c rest ih =>
    intro t ht d hd
    simp only [splitBy] at ht
    by_cases hc : p c
    · simp [hc] at ht
      rcases ht with h | h
      · simp [h] at hd
      · exact ih t h d hd
    · simp [hc] at ht
      rcases h : splitBy p rest with _ | ⟨t0, ts⟩
      · exact absurd h (splitBy_ne_nil p rest)
      · rw [h] at ht
        simp at ht
        rcases ht with h1 | h1
        · subst h1
          rw [List.mem_cons] at hd
          rcases hd with hd | hd
          · subst hd; simpa using hc
          · exact ih t0 (by simp [h]) d hd
        · exact ih t (by simp [h, h1]) d hd

theorem splitBy_noDelim (p : Char → Bool) (l : List Char)
    (h : ∀ c ∈ l, p c = false) : splitBy p l = [l] := by
  induction l with
  | nil => simp [splitBy]
  | cons c rest ih =>
    have hc : p c = false := h c (by simp)
    have ih' := ih (fun d hd => h d (by simp [hd]))
    simp [splitBy, hc, ih']

theorem splitBy_append_delim (p : Char → Bool) (x ys : List Char) (d : Char)
    (hx : ∀ c ∈ x, p c = false) (hd : p d = true) :
    splitBy p (x ++ d :: ys) = x :: splitBy p ys := by
  induction x with
  | nil => simp [splitBy, hd]
  | cons c x' ih =>
    have hc : p c = false := hx c (by simp)
    have ih' := ih (fun e he => hx e (by simp [he]))
    simp [splitBy, hc, ih']

theorem dropWhile_idem (p : Char → Bool) (l : List Char) :
    (l.dropWhile p).dropWhile p = l.dropWhile p := by
  induction l with
  | nil => rfl
  | cons c rest ih =>
    by_cases hc : p c
    · simp [List.dropWhile_cons, hc, ih]
    · simp [List.dropWhile_cons, hc]

theorem trimLeft_idem (l : List Char) : trimLeft (trimLeft l) = trimLeft l :=
  dropWhile_idem _ l

theorem trimRight_idem (l : List Char) : trimRight (trimRight l) = trimRight l := by
  induction l with
  | nil => rfl
  | cons c rest ih =>
    simp only [trimRight]
    cases hr : (trimRight rest).isEmpty with
    | true =>
      by_cases hc : c.isWhitespace
      · simp [hr, hc, trimRight]
      · simp [hr, hc, trimRight]
    | false =>
      simp [trimRight, hr, ih]

theorem trimLeft_trimRight_of_fixed (m : List Char) (h : trimLeft m = m) :
    trimLeft (trimRight m) = trimRight m := by
  cases m with
  | nil => rfl
  | cons c m' =>
    have hc : c.isWhitespace = false := by
      by_contra hcc
      simp only [Bool.not_eq_false] at hcc
      have h2 := h
      simp only [trimLeft, List.dropWhile_cons, hcc, if_pos rfl] at h2
      have hlen := congrArg List.length h2
      have hle : (m'.dropWhile Char.isWhitespace).length ≤ m'.length :=
        (List.dropWhile_sublist _).length_le
      simp at hlen
      omega
    simp only [trimRight]
    cases hr : (trimRight m').isEmpty with
    | true => simp [hc, trimLeft, List.dropWhile_cons]
    | false =>
      simp [trimLeft, List.dropWhile_cons, hc, hr]

theorem trimChars_idem (l : List Char) : trimChars (trimChars l) = trimChars l := by
  unfold trimChars
  rw [trimLeft_trimRight_of_fixed (trimLeft l) (trimLeft_idem l), trimRight_idem]

theorem mem_trimRight (l : List Char) : ∀ c ∈ trimRight l, c ∈ l := by
  induction l with
  | nil => simp [trimRight]
  | cons a rest ih =>
    intro c hc
    simp only [trimRight] at hc
    cases hr : (trimRight rest).isEmpty with
    | true =>
      by_cases ha : a.isWhitespace
      · simp [hr, ha] at hc
      · simp [hr, ha] at hc
        simp [hc]
    | false =>
      simp only [hr] at hc
      simp only [Bool.false_eq_true, if_false] at hc
      rw [List.mem_cons] at hc
      rcases hc with hc | hc
      · simp [hc]
      · exact List.mem_cons_of_mem a (ih c hc)

theorem mem_trimChars (l : List Char) : ∀ c ∈ trimChars l, c ∈ l := by
  intro c hc
  have h1 := mem_trimRight (trimLeft l) c hc
  exact (List.dropWhile_sublist _).mem h1

theorem collectGenes_mem (ps : List (List Char)) :
    ∀ seen g, g ∈ collectGenes seen ps →
      g ∉ seen ∧ g ≠ [] ∧ ∃ p ∈ ps, g = trimChars p := by
  induction ps with
  | nil => intro seen g hg; simp [collectGenes] at hg
  | cons p ps ih =>
    intro seen g hg
    simp only [collectGenes] at hg
    by_cases h1 : trimChars p = []
    · simp only [h1, if_pos rfl] at hg
      obtain ⟨hs, hne, q, hq, hgq⟩ := ih seen g hg
      exact ⟨hs, hne, q, by simp [hq], hgq⟩
    · simp only [if_neg h1] at hg
      by_cases h2 : trimChars p ∈ seen
      · simp only [if_pos h2] at hg
        obtain ⟨hs, hne, q, hq, hgq⟩ := ih seen g hg
        exact ⟨hs, hne, q, by simp [hq], hgq⟩
      · simp only [if_neg h2] at hg
        rw [List.mem_cons] at hg
        rcases hg with hg | hg
        · subst hg
          exact ⟨h2, h1, p, by simp, rfl⟩
        · obtain ⟨hs, hne, q, hq, hgq⟩ := ih (trimChars p :: seen) g hg
          exact ⟨fun hmem => hs (List.mem_cons_of_mem _ hmem), hne, q, by simp [hq], hgq⟩

theorem collectGenes_nodup (ps : List (List Char)) :
    ∀ seen, (collectGenes seen ps).Nodup := by
  induction ps with
  | nil => intro seen; simp [collectGenes]
  | cons p ps ih =>
    intro seen
    simp only [collectGenes]
    by_cases h1 : trimChars p = []
    · simp only [h1, if_pos rfl]; exact ih seen
    · simp only [if_neg h1]
      by_cases h2 : trimChars p ∈ seen
      · simp only [if_pos h2]; exact ih seen
      · simp only [if_neg h2]
        refine List.nodup_cons.mpr ⟨?_, ih _⟩
        intro hmem
        have := (collectGenes_mem ps _ _ hmem).1
        simp at this

theorem collectGenes_fixed (out : List (List Char)) :
    ∀ seen, out.Nodup → (∀ g ∈ out, trimChars g = g ∧ g ≠ []) →
      (∀ g ∈ out, g ∉ seen) → collectGenes seen out = out := by
  induction out with
  | nil => intro seen _ _ _; rfl
  | cons g gs ih =>
    intro seen hnd hprops hseen
    have hg := hprops g (by simp)
    simp only [collectGenes, hg.1, if_neg hg.2, if_neg (hseen g (by simp))]
    congr 1
    refine ih (g :: seen) (List.nodup_cons.mp hnd).2
      (fun x hx => hprops x (by simp [hx])) ?_
    intro x hx
    rw [List.mem_cons]
    push_neg
    exact ⟨fun hxg => (List.nodup_cons.mp hnd).1 (hxg ▸ hx), hseen x (by simp [hx])⟩

theorem parse_gene_list_props (s : List Char) :
    ∀ g ∈ parse_gene_list (some s),
      trimChars g = g ∧ g ≠ [] ∧ ∀ c ∈ g, isDelim c = false := by
  intro g hg
  simp only [parse_gene_list] at hg
  by_cases hs : s = []
  · simp [hs] at hg
  · simp only [if_neg hs] at hg
    obtain ⟨_, hne, p, hp, hgp⟩ := collectGenes_mem _ _ _ hg
    refine ⟨hgp ▸ trimChars_idem p, hne, ?_⟩
    intro c hc
    have hcp : c ∈ p := mem_trimChars p c (hgp ▸ hc)
    exact mem_splitBy_noDelim isDelim s p hp c hcp

theorem parse_gene_list_nodup (s : List Char) :
    (parse_gene_list (some s)).Nodup := by
  simp only [parse_gene_list]
  by_cases hs : s = []
  · simp [hs]
  · simp only [if_neg hs]
    exact collectGenes_nodup _ _

theorem joinWith_ne_nil (out : List (List Char)) (g : List Char) (gs : List (List Char))
    (hout : out = g :: gs) (hg : g ≠ []) : joinWith [','] out ≠ [] := by
  subst hout
  cases gs with
  | nil => simpa [joinWith] using hg
  | cons y ys =>
    simp only [joinWith]
    intro h
    rw [List.append_assoc] at h
    rcases List.append_eq_nil.mp h with ⟨h1, _⟩
    exact hg h1

theorem splitDelim_joinWith (out : List (List Char))
    (hfree : ∀ g ∈ out, ∀ c ∈ g, isDelim c = false) (hne : out ≠ []) :
    splitDelim (joinWith [','] out) = out := by
  induction out with
  | nil => exact absurd rfl hne
  | cons g gs ih =>
    cases gs with
    | nil =>
      simp only [joinWith, splitDelim]
      exact splitBy_noDelim isDelim g (hfree g (by simp))
    | cons y ys =>
      have hstep : joinWith [','] (g :: y :: ys) = g ++ ',' :: joinWith [','] (y :: ys) := by
        simp [joinWith]
      rw [splitDelim, hstep,
        splitBy_append_delim isDelim g _ ',' (hfree g (by simp)) (by simp [isDelim])]
      rw [show splitBy isDelim (joinWith [','] (y :: ys)) =
            splitDelim (joinWith [','] (y :: ys)) from rfl]
      rw [ih (fun x hx => hfree x (by simp [hx])) (by simp)]

theorem parse_gene_list_roundtrip (s : List Char) :
    parse_gene_list (some (joinWith [','] (parse_gene_list (some s)))) =
      parse_gene_list (some s) := by
  have hprops := parse_gene_list_props s
  have hnd := parse_gene_list_nodup s
  rcases hout : parse_gene_list (some s) with _ | ⟨g, gs⟩
  · simp [joinWith, parse_gene_list]
  · rw [hout] at hprops hnd
    have hg : g ≠ [] := (hprops g (by simp)).2.1
    have hjoin : joinWith [','] (g :: gs) ≠ [] :=
      joinWith_ne_nil (g :: gs) g gs rfl hg
    simp only [parse_gene_list, if_neg hjoin]
    rw [splitDelim_joinWith (g :: gs) (fun x hx => (hprops x hx).2.2) (by simp)]
    exact collectGenes_fixed (g :: gs) []
      hnd (fun x hx => ⟨(hprops x hx).1, (hprops x hx).2.1⟩) (by simp)

theorem replaceStar_eq_joinWith (g l : List Char) :
    replaceStar g l = joinWith g (splitStar l) := by
  induction l with
  | nil => simp [replaceStar, splitStar, splitBy, joinWith]
  | cons c rest ih =>
    by_cases hc : c = '*'
    · subst hc
      rcases hsp : splitStar rest with _ | ⟨h, t⟩
      · exact absurd hsp (splitBy_ne_nil _ rest)
      · have : splitStar ('*' :: rest) = [] :: h :: t := by
          simp only [splitStar, splitBy]
          rw [if_pos (by simp)]
          rw [show splitBy (fun c => c == '*') rest = splitStar rest from rfl, hsp]
        rw [this]
        simp only [replaceStar, if_pos rfl]
        rw [ih, hsp]
        simp [joinWith]
    · rcases hsp : splitStar rest with _ | ⟨h, t⟩
      · exact absurd hsp (splitBy_ne_nil _ rest)
      · have hcs : splitStar (c :: rest) = (c :: h) :: t := by
          simp only [splitStar, splitBy]
          rw [if_neg (by simp [hc])]
          rw [show splitBy (fun c => c == '*') rest = splitStar rest from rfl, hsp]
        rw [hcs]
        simp only [replaceStar, if_neg hc]
        rw [ih, hsp]
        cases t with
        | nil => simp [joinWith]
        | cons y ys => simp [joinWith]

theorem dropWhile_bne_mem (l : List Char) (a : Char) (h : a ∈ l) :
    ∃ t, l.dropWhile (fun c => c != a) = a :: t := by
  induction l with
  | nil => simp at h
  | cons c rest ih =>
    by_cases hc : c = a
    · subst hc
      exact ⟨rest, by simp [List.dropWhile_cons]⟩
    · have ha : a ∈ rest := by
        rcases List.mem_cons.mp h with h1 | h1
        · exact absurd h1.symm hc
        · exact h1
      obtain ⟨t, ht⟩ := ih ha
      exact ⟨t, by simp [List.dropWhile_cons, Ne.symm hc, bne_iff_ne, hc, ht]⟩

theorem rsplit_decomposition (pattern : List Char) (h : '.' ∈ pattern) :
    ∃ base ext, pattern = base ++ '.' :: ext ∧ '.' ∉ ext ∧
      rsplitBase pattern = base ∧ rsplitExt pattern = ext := by
  obtain ⟨t, ht⟩ := dropWhile_bne_mem pattern.reverse '.' (List.mem_reverse.mpr h)
  refine ⟨t.reverse, (pattern.reverse.takeWhile (fun c => c != '.')).reverse, ?_, ?_, ?_, ?_⟩
  · have hsplit : pattern.reverse.takeWhile (fun c => c != '.') ++ ('.' :: t) =
        pattern.reverse := by
      rw [← ht]; exact List.takeWhile_append_dropWhile _ _
    calc pattern = pattern.reverse.reverse := (List.reverse_reverse pattern).symm
      _ = (pattern.reverse.takeWhile (fun c => c != '.') ++ ('.' :: t)).reverse := by
          rw [hsplit]
      _ = _ := by simp [List.reverse_append]
  · intro hdot
    rw [List.mem_reverse] at hdot
    have := List.mem_takeWhile_imp hdot
    simp at this
  · simp [rsplitBase, ht]
  · rfl

theorem startsWith_append (pat rest : List Char) : startsWith pat (pat ++ rest) = true := by
  induction pat with
  | nil => rfl
  | cons p ps ih => simp [startsWith, ih]

theorem isSubList_of_startsWith (pat s : List Char) (h : startsWith pat s = true) :
    isSubList pat s = true := by
  cases s with
  | nil => cases pat with
    | nil => rfl
    | cons p ps => simp [startsWith] at h
  | cons c cs => simp [isSubList, h]

theorem isSubList_cons (pat s : List Char) (c : Char) (h : isSubList pat s = true) :
    isSubList pat (c :: s) = true := by
  simp [isSubList, h]

theorem isSubList_append_left (pat a s : List Char) (h : isSubList pat s = true) :
    isSubList pat (a ++ s) = true := by
  induction a with
  | nil => exact h
  | cons c cs ih => exact isSubList_cons pat (cs ++ s) c ih

theorem containsSub_of_middle (x p y : String) :
    containsSub (x ++ (p ++ y)) p = true := by
  unfold containsSub
  rw [String.data_append, String.data_append]
  exact isSubList_append_left p.data x.data (p.data ++ y.data)
    (isSubList_of_startsWith p.data (p.data ++ y.data) (startsWith_append p.data y.data))

/-- C1: for "retina" or "cornea", `_filter_by_region` retains exactly the
cells having a phenograph row whose cluster group maps through
`CLUSTER_TO_LOCATION` to the requested region (so a cell whose cluster maps
elsewhere, maps to "unknown", or has no mapping entry is never retained),
and for the whole-eye value "eye" it returns the dataset unchanged. -/
theorem filter_by_region_exact (d : MainData) (tbl : List PhenoRow) (region : String)
    (hreg : region = "retina" ∨ region = "cornea")
    (hph : d.phenograph = some tbl) :
    filter_by_region d "eye" = .ok d ∧
    ∃ d', filter_by_region d region = .ok d' ∧
      (∀ c, c ∈ d'.cells ↔ c ∈ d.cells ∧
        ∃ row ∈ tbl, row.bins = c ∧ clusterLocation row.group = some region) ∧
      (∀ c ∈ d'.cells,
        ∃ row ∈ tbl, row.bins = c ∧ clusterLocation row.group = some region) := by
  refine ⟨by simp [filter_by_region], ?_⟩
  have hne : ¬ region = "eye" := by rcases hreg with h | h <;> subst h <;> decide
  refine ⟨filter_cells d
      ((tbl.filter (fun row => clusterLocation row.group == some region)).map
        PhenoRow.bins), ?_, ?_, ?_⟩
  · unfold filter_by_region
    rw [if_neg hne, if_pos hreg, hph]
  · intro c
    simp only [filter_cells, List.mem_filter, List.mem_map, List.elem_iff,
      beq_iff_eq]
    constructor
    · rintro ⟨hc, row, ⟨hrow, hloc⟩, hbins⟩
      exact ⟨hc, row, hrow, hbins, hloc⟩
    · rintro ⟨hc, row, hrow, hbins, hloc⟩
      exact ⟨hc, row, ⟨hrow, hloc⟩, hbins⟩
  · intro c hc
    simp only [filter_cells, List.mem_filter, List.mem_map, List.elem_iff,
      beq_iff_eq] at hc
    obtain ⟨_, row, ⟨hrow, hloc⟩, hbins⟩ := hc
    exact ⟨row, hrow, hbins, hloc⟩

/-- C1 witness: a concrete dataset where exactly the cluster-6 ("retina")
cell survives the retina filter. -/
theorem filter_by_region_exact_witness :
    (("retina" : String) = "retina" ∨ ("retina" : String) = "cornea") ∧
    ((⟨["b1", "b2", "b3"],
       some [⟨"6", "b1"⟩, ⟨"1", "b2"⟩, ⟨"99", "b3"⟩]⟩ : MainData).phenograph =
      some [⟨"6", "b1"⟩, ⟨"1", "b2"⟩, ⟨"99", "b3"⟩]) ∧
    (filter_by_region ⟨["b1", "b2", "b3"],
       some [⟨"6", "b1"⟩, ⟨"1", "b2"⟩, ⟨"99", "b3"⟩]⟩ "eye" =
      .ok ⟨["b1", "b2", "b3"], some [⟨"6", "b1"⟩, ⟨"1", "b2"⟩, ⟨"99", "b3"⟩]⟩ ∧
     ∃ d', filter_by_region ⟨["b1", "b2", "b3"],
         some [⟨"6", "b1"⟩, ⟨"1", "b2"⟩, ⟨"99", "b3"⟩]⟩ "retina" = .ok d' ∧
       (∀ c, c ∈ d'.cells ↔ c ∈ (["b1", "b2", "b3"] : List String) ∧
         ∃ row ∈ ([⟨"6", "b1"⟩, ⟨"1", "b2"⟩, ⟨"99", "b3"⟩] : List PhenoRow),
           row.bins = c ∧ clusterLocation row.group = some "retina") ∧
       (∀ c ∈ d'.cells,
         ∃ row ∈ ([⟨"6", "b1"⟩, ⟨"1", "b2"⟩, ⟨"99", "b3"⟩] : List PhenoRow),
           row.bins = c ∧ clusterLocation row.group = some "retina")) :=
  ⟨Or.inl rfl, rfl,
   filter_by_region_exact ⟨["b1", "b2", "b3"],
     some [⟨"6", "b1"⟩, ⟨"1", "b2"⟩, ⟨"99", "b3"⟩]⟩
     [⟨"6", "b1"⟩, ⟨"1", "b2"⟩, ⟨"99", "b3"⟩] "retina" (Or.inl rfl) rfl⟩

/-- C8: with a specific region requested and no "phenograph" entry in the
tool results, `_filter_by_region` fails with the missing-prerequisite
`AnnotationError`; it is never a silent skip. -/
theorem filter_by_region_missing_phenograph (d : MainData) (region : String)
    (hreg : region = "retina" ∨ region = "cornea")
    (hph : d.phenograph = none) :
    filter_by_region d region =
      .error (.AnnotationError
        ("Could not find \x27phenograph\x27 results in data.tl.result. " ++
         "Make sure phenograph clustering has been run.")) := by
  have hne : ¬ region = "eye" := by rcases hreg with h | h <;> subst h <;> decide
  unfold filter_by_region
  rw [if_neg hne, if_pos hreg, hph]

/-- C8 witness: the concrete failure on a dataset without clustering. -/
theorem filter_by_region_missing_phenograph_witness :
    (("cornea" : String) = "retina" ∨ ("cornea" : String) = "cornea") ∧
    ((⟨["b1"], none⟩ : MainData).phenograph = none) ∧
    filter_by_region ⟨["b1"], none⟩ "cornea" =
      .error (.AnnotationError
        ("Could not find \x27phenograph\x27 results in data.tl.result. " ++
         "Make sure phenograph clustering has been run.")) :=
  ⟨Or.inr rfl, rfl,
   filter_by_region_missing_phenograph ⟨["b1"], none⟩ "cornea" (Or.inr rfl) rfl⟩

/-- C10: for any region string outside the three accepted values,
`_filter_by_region` fails with an `AnnotationError` naming the region, and
the result is the same for every dataset — the clustering result is never
read and the cell filter is never invoked, so the dataset is untouched. -/
theorem filter_by_region_invalid_region (d : MainData) (region : String)
    (h1 : region ≠ "eye") (h2 : region ≠ "retina") (h3 : region ≠ "cornea") :
    filter_by_region d region =
      .error (.AnnotationError
        ("Invalid region \x27" ++ region ++ "\x27. " ++
         "Expected one of: \x27eye\x27, \x27retina\x27, \x27cornea\x27.")) ∧
    ∀ d₂ : MainData, filter_by_region d₂ region = filter_by_region d region := by
  have hor : ¬ (region = "retina" ∨ region = "cornea") := by
    rintro (h | h) <;> [exact h2 h; exact h3 h]
  constructor
  · unfold filter_by_region
    rw [if_neg h1, if_neg hor]
  · intro d₂
    unfold filter_by_region
    rw [if_neg h1, if_neg hor, if_neg h1, if_neg hor]

/-- C10 witness: the concrete rejection of region "lens", identical on two
different datasets. -/
theorem filter_by_region_invalid_region_witness :
    (("lens" : String) ≠ "eye" ∧ ("lens" : String) ≠ "retina" ∧
     ("lens" : String) ≠ "cornea") ∧
    (filter_by_region ⟨["b1"], some [⟨"6", "b1"⟩]⟩ "lens" =
      .error (.AnnotationError
        ("Invalid region \x27lens\x27. " ++
         "Expected one of: \x27eye\x27, \x27retina\x27, \x27cornea\x27.")) ∧
     ∀ d₂ : MainData, filter_by_region d₂ "lens" =
       filter_by_region ⟨["b1"], some [⟨"6", "b1"⟩]⟩ "lens") :=
  ⟨⟨by decide, by decide, by decide⟩,
   filter_by_region_invalid_region ⟨["b1"], some [⟨"6", "b1"⟩]⟩ "lens"
     (by decide) (by decide) (by decide)⟩

/-- C2: `_run_singler` makes at most two attempts; a second attempt (the
CPU fallback) happens exactly when the preferred backend is "rapids" and
its call fails with a message containing the recognized RAPIDS-unavailable
signature; a "cpu" preference is tried once and never falls back; every
raised error is an `AnnotationError` whose message records the attempted
backend(s); and a successful result names a backend whose call succeeded,
the preferred one on a first-try success and "cpu" after a fallback. -/
theorem run_singler_fallback (call : String → Except String Unit) (prefer : String)
    (hpref : prefer = "rapids" ∨ prefer = "cpu") :
    (run_singler call prefer).1.length ≤ 2 ∧
    ((run_singler call prefer).1.length = 2 ↔
      prefer = "rapids" ∧
        ∃ msg, call prefer = .error msg ∧ containsSub msg gpuSignature = true) ∧
    (prefer = "cpu" → (run_singler call prefer).1 = ["cpu"]) ∧
    (∀ b, (run_singler call prefer).2 = .ok b →
      call b = .ok () ∧
        ((b = prefer ∧ (run_singler call prefer).1 = [prefer]) ∨
         (b = "cpu" ∧ (run_singler call prefer).1 = [prefer, "cpu"]))) ∧
    (∀ m, (run_singler call prefer).2 = .error (.AnnotationError m) →
      containsSub m prefer = true) := by
  rcases hpref with hp | hp <;> subst hp
  · rcases hc : call "rapids" with msg | u
    · rcases hsig : containsSub msg gpuSignature with _ | _
      · have hcondf : ¬ ((containsSub msg gpuSignature &&
            (pyLower "rapids" == "rapids")) = true) := by rw [hsig]; simp
        have hrs : run_singler call "rapids" =
            (["rapids"],
             .error (.AnnotationError
               ("Error during annotation with method=" ++ "rapids" ++
                ". Message: " ++ msg))) := by
          simp only [run_singler, hc]
          rw [if_neg hcondf]
        simp only [hrs]
        refine ⟨by simp, ?_, by simp, by simp, ?_⟩
        · constructor
          · intro h; simp at h
          · rintro ⟨-, m, hm, hcont⟩
            injection hm with hm
            subst hm
            rw [hsig] at hcont
            exact absurd hcont (by simp)
        · intro m hm
          injection hm with hm
          injection hm with hm
          subst hm
          rw [show ("Error during annotation with method=" ++ "rapids" ++
                ". Message: " ++ msg) =
              "Error during annotation with method=" ++
                ("rapids" ++ (". Message: " ++ msg)) by
            rw [String.append_assoc, String.append_assoc]]
          exact containsSub_of_middle _ _ _
      · have hcondt : ((containsSub msg gpuSignature &&
            (pyLower "rapids" == "rapids")) = true) := by rw [hsig]; decide
        rcases hcpu : call "cpu" with msg2 | u2
        · have hrs : run_singler call "rapids" =
              (["rapids", "cpu"],
               .error (.AnnotationError
                 ("single_r failed with both \x27rapids\x27 and \x27cpu\x27. Methods tried: [\x27" ++
                  "rapids" ++ "\x27, \x27cpu\x27]"))) := by
            simp only [run_singler, hc]
            rw [if_pos hcondt]
            simp only [hcpu]
          simp only [hrs]
          refine ⟨by simp, ?_, by simp, by simp, ?_⟩
          · constructor
            · intro _; exact ⟨trivial, msg, rfl, hsig⟩
            · intro _; rfl
          · intro m hm
            injection hm with hm
            injection hm with hm
            subst hm
            rw [show ("single_r failed with both \x27rapids\x27 and \x27cpu\x27. Methods tried: [\x27" ++
                  "rapids" ++ "\x27, \x27cpu\x27]") =
                "single_r failed with both \x27rapids\x27 and \x27cpu\x27. Methods tried: [\x27" ++
                  ("rapids" ++ "\x27, \x27cpu\x27]") by
              rw [String.append_assoc]]
            exact containsSub_of_middle _ _ _
        · have hrs : run_singler call "rapids" = (["rapids", "cpu"], .ok "cpu") := by
            simp only [run_singler, hc]
            rw [if_pos hcondt]
            simp only [hcpu]
          simp only [hrs]
          refine ⟨by simp, ?_, by simp, ?_, by simp⟩
          · constructor
            · intro _; exact ⟨trivial, msg, rfl, hsig⟩
            · intro _; rfl
          · intro b hb
            injection hb with hb
            subst hb
            refine ⟨by rw [hcpu], by simp⟩
    · have hrs : run_singler call "rapids" = (["rapids"], .ok "rapids") := by
        simp only [run_singler, hc]
      simp only [hrs]
      refine ⟨by simp, ?_, by simp, ?_, by simp⟩
      · constructor
        · intro h; simp at h
        · rintro ⟨-, m, hm, -⟩
          exact absurd hm (by simp)
      · intro b hb
        injection hb with hb
        subst hb
        refine ⟨by rw [hc], by simp⟩
  · rcases hc : call "cpu" with msg | u
    · have hcondf : ¬ ((containsSub msg gpuSignature &&
          (pyLower "cpu" == "rapids")) = true) := by
        rw [show (pyLower "cpu" == "rapids") = false by decide]
        simp
      have hrs : run_singler call "cpu" =
          (["cpu"],
           .error (.AnnotationError
             ("Error during annotation with method=" ++ "cpu" ++
              ". Message: " ++ msg))) := by
        simp only [run_singler, hc]
        rw [if_neg hcondf]
      simp only [hrs]
      refine ⟨by simp, ?_, by simp, by simp, ?_⟩
      · constructor
        · intro h; simp at h
        · rintro ⟨h, -⟩
          exact absurd h (by decide)
      · intro m hm
        injection hm with hm
        injection hm with hm
        subst hm
        rw [show ("Error during annotation with method=" ++ "cpu" ++
              ". Message: " ++ msg) =
            "Error during annotation with method=" ++
              ("cpu" ++ (". Message: " ++ msg)) by
          rw [String.append_assoc, String.append_assoc]]
        exact containsSub_of_middle _ _ _
    · have hrs : run_singler call "cpu" = (["cpu"], .ok "cpu") := by
        simp only [run_singler, hc]
      simp only [hrs]
      refine ⟨by simp, ?_, by simp, ?_, by simp⟩
      · constructor
        · intro h; simp at h
        · rintro ⟨h, -⟩
          exact absurd h (by decide)
      · intro b hb
        injection hb with hb
        subst hb
        refine ⟨by rw [hc], by simp⟩

/-- An oracle on which the accelerated backend fails with the recognized
signature and the CPU backend succeeds. -/
def rapidsDownCall : String → Except String Unit := fun m =>
  if m = "rapids" then
    .error "Your env don\x27t have GPU related RAPIDS packages"
  else .ok ()

/-- C2 witness: the fallback behaviour at the concrete oracle where
RAPIDS is unavailable. -/
theorem run_singler_fallback_witness :
    (("rapids" : String) = "rapids" ∨ ("rapids" : String) = "cpu") ∧
    (run_singler rapidsDownCall "rapids").1.length ≤ 2 :=
  ⟨Or.inl rfl, (run_singler_fallback rapidsDownCall "rapids" (Or.inl rfl)).1⟩

/-- C3: when gene plotting is requested, an empty or absent gene selector
is a soft skip (success with zero gene-plot files); a nonempty selector
none of whose genes are in the vocabulary is a hard `AnnotationError`; and
at least one valid gene makes the run succeed (invalid companions are only
logged), producing a nonempty gene-plot list. -/
theorem plot_and_save_gene_validation (vocab : List (List Char)) (pt : String)
    (ge : Option (List Char)) (pat pdf : List Char)
    (hpt : pt = "gene" ∨ pt = "both") :
    parse_gene_list none = [] ∧
    (parse_gene_list ge = [] →
      plot_and_save vocab pt ge pat pdf =
        .ok ((if pt = "cell" ∨ pt = "both" then [pdf] else []), [])) ∧
    (parse_gene_list ge ≠ [] → (∀ g ∈ parse_gene_list ge, g ∉ vocab) →
      ∃ m, plot_and_save vocab pt ge pat pdf = .error (.AnnotationError m)) ∧
    ((∃ g ∈ parse_gene_list ge, g ∈ vocab) →
      ∃ cell gene, plot_and_save vocab pt ge pat pdf = .ok (cell, gene) ∧
        gene ≠ []) := by
  refine ⟨rfl, ?_, ?_, ?_⟩
  · intro hempty
    simp only [plot_and_save]
    rw [if_pos hpt, if_pos hempty]
  · intro hne hinv
    have hval : (parse_gene_list ge).filter (fun g => vocab.contains g) = [] := by
      rw [List.filter_eq_nil_iff]
      intro a ha h
      exact hinv a ha (List.elem_iff.mp h)
    simp only [plot_and_save]
    rw [if_pos hpt, if_neg hne, if_pos hval]
    exact ⟨_, rfl⟩
  · rintro ⟨g, hg, hgv⟩
    have hne2 : parse_gene_list ge ≠ [] := List.ne_nil_of_mem hg
    have hvne : (parse_gene_list ge).filter (fun g => vocab.contains g) ≠ [] := by
      intro h
      have hmem : g ∈ (parse_gene_list ge).filter (fun g => vocab.contains g) :=
        List.mem_filter.mpr ⟨hg, List.elem_iff.mpr hgv⟩
      rw [h] at hmem
      simp at hmem
    simp only [plot_and_save]
    rw [if_pos hpt, if_neg hne2, if_neg hvne]
    refine ⟨_, _, rfl, ?_⟩
    simpa using hvne

/-- C3 witness: with vocabulary containing only "Rho", the request
"Rho,NotAGene" succeeds with a nonempty gene-plot list. -/
theorem plot_and_save_gene_validation_witness :
    (("gene" : String) = "gene" ∨ ("gene" : String) = "both") ∧
    (∃ g ∈ parse_gene_list (some "Rho,NotAGene".data), g ∈ [("Rho".data : List Char)]) ∧
    ∃ cell gene,
      plot_and_save ["Rho".data] "gene" (some "Rho,NotAGene".data)
        "spatial_*.pdf".data "out.pdf".data = .ok (cell, gene) ∧ gene ≠ [] :=
  ⟨Or.inl rfl, by decide,
   (plot_and_save_gene_validation ["Rho".data] "gene" (some "Rho,NotAGene".data)
     "spatial_*.pdf".data "out.pdf".data (Or.inl rfl)).2.2.2 (by decide)⟩

/-- C4: the gene-plot output path substitutes the gene for every wildcard
occurrence when the pattern contains one; otherwise, when the pattern has
an extension, inserts `_gene` before the last extension; otherwise appends
`_gene.pdf`; with the three concrete spec examples. -/
theorem out_gene_path_spec (pattern g : List Char) :
    ('*' ∈ pattern → outGenePath pattern g = joinWith g (splitStar pattern)) ∧
    ('*' ∉ pattern → '.' ∈ pattern →
      ∃ base ext, pattern = base ++ '.' :: ext ∧ '.' ∉ ext ∧
        outGenePath pattern g = base ++ '_' :: g ++ '.' :: ext) ∧
    ('*' ∉ pattern → '.' ∉ pattern →
      outGenePath pattern g = pattern ++ '_' :: g ++ ".pdf".data) ∧
    outGenePath "spatial_*.pdf".data "Rho".data = "spatial_Rho.pdf".data ∧
    outGenePath "out".data "Rho".data = "out_Rho.pdf".data ∧
    outGenePath "out.png".data "Rho".data = "out_Rho.png".data := by
  refine ⟨?_, ?_, ?_, by decide, by decide, by decide⟩
  · intro hstar
    unfold outGenePath
    rw [if_pos hstar]
    exact replaceStar_eq_joinWith g pattern
  · intro hnstar hdot
    obtain ⟨base, ext, h1, h2, hbase, hext⟩ := rsplit_decomposition pattern hdot
    refine ⟨base, ext, h1, h2, ?_⟩
    unfold outGenePath
    rw [if_neg hnstar, if_pos hdot, hbase, hext]
  · intro hns hnd
    unfold outGenePath
    rw [if_neg hns, if_neg hnd]

/-- C4 witness: the wildcard case evaluated at the default pattern. -/
theorem out_gene_path_spec_witness :
    ('*' ∈ "spatial_*.pdf".data) ∧
    outGenePath "spatial_*.pdf".data "Rho".data =
      joinWith "Rho".data (splitStar "spatial_*.pdf".data) :=
  ⟨by decide, (out_gene_path_spec "spatial_*.pdf".data "Rho".data).1 (by decide)⟩

/-- C5: `_parse_gene_list` maps `None` and the empty string to `[]`;
collapses "Rho,Rho,Opn1sw" to ["Rho","Opn1sw"]; always returns a
duplicate-free list of nonempty, fully-trimmed tokens each obtained by
stripping one comma/semicolon-delimited piece of the input; and is
idempotent: re-parsing the comma-rejoined output returns the output. -/
theorem parse_gene_list_spec :
    parse_gene_list none = [] ∧
    parse_gene_list (some []) = [] ∧
    parse_gene_list (some "Rho,Rho,Opn1sw".data) = ["Rho".data, "Opn1sw".data] ∧
    ∀ s : List Char,
      (parse_gene_list (some s)).Nodup ∧
      (∀ g ∈ parse_gene_list (some s),
        g ≠ [] ∧ trimChars g = g ∧ ∃ p ∈ splitDelim s, g = trimChars p) ∧
      parse_gene_list (some (joinWith [','] (parse_gene_list (some s)))) =
        parse_gene_list (some s) := by
  refine ⟨rfl, rfl, by decide, ?_⟩
  intro s
  refine ⟨parse_gene_list_nodup s, ?_, parse_gene_list_roundtrip s⟩
  intro g hg
  by_cases hs : s = []
  · subst hs
    simp [parse_gene_list] at hg
  · simp only [parse_gene_list, if_neg hs] at hg
    obtain ⟨-, hne, p, hp, hgp⟩ := collectGenes_mem _ _ _ hg
    exact ⟨hne, hgp ▸ trimChars_idem p, p, hp, hgp⟩

/-- C5 witness: the token "Rho" of the concrete parse carries the stated
properties. -/
theorem parse_gene_list_spec_witness :
    ("Rho".data ∈ parse_gene_list (some "Rho,Rho,Opn1sw".data)) ∧
    ("Rho".data ≠ ([] : List Char) ∧ trimChars "Rho".data = "Rho".data ∧
      ∃ p ∈ splitDelim "Rho,Rho,Opn1sw".data, "Rho".data = trimChars p) :=
  ⟨by decide,
   (parse_gene_list_spec.2.2.2 "Rho,Rho,Opn1sw".data).2.1 "Rho".data (by decide)⟩

/-- C6 counterexample: a reference whose processed marker is already set is
still normalized and log-transformed by `_load_and_preprocess_ref`; no
marker check exists in the source. -/
theorem load_ref_ignores_marker_cex :
    load_and_preprocess_ref (fun _ => .ok ⟨true, []⟩) normalizeTotalOp log1pOp
      "reference.h5ad" = .ok ⟨true, ["normalize_total", "log1p"]⟩ := rfl

/-- C6 amended: `_load_and_preprocess_ref` applies `normalize_total` then
`log1p` to every successfully read reference, whatever the value of its
prior-processing marker. -/
theorem load_ref_always_preprocesses (processed : Bool) (ops : List String)
    (path : String) :
    load_and_preprocess_ref (fun _ => .ok ⟨processed, ops⟩) normalizeTotalOp log1pOp
      path = .ok ⟨processed, ops ++ ["normalize_total", "log1p"]⟩ := by
  simp [load_and_preprocess_ref, normalizeTotalOp, log1pOp]

/-- C9 counterexample: an unreadable main container, an unreadable
reference container and a failing reference preprocessing step all raise
the module's single `AnnotationError` class — there is no distinct
`LoadError` or `PreprocessError` kind. -/
theorem error_kinds_cex :
    load_main_data (fun _ => .error "unreadable container")
      "data/DR_only_stereo.h5ad" =
      .error (.AnnotationError
        ("Error loading main data file \x27data/DR_only_stereo.h5ad\x27: " ++
         "unreadable container")) ∧
    load_and_preprocess_ref (fun _ => .error "unparsable container")
      normalizeTotalOp log1pOp "ref.h5ad" =
      .error (.AnnotationError
        ("Error loading reference file \x27ref.h5ad\x27: unparsable container")) ∧
    load_and_preprocess_ref (fun _ => .ok ⟨false, []⟩)
      (fun _ => .error "normalize_total failed") log1pOp "ref.h5ad" =
      .error (.AnnotationError
        "Error during reference data preprocessing: normalize_total failed") := by
  exact ⟨rfl, rfl, rfl⟩

/-- C9 amended: every container-load failure and every reference
preprocessing failure is reported through the one `AnnotationError` class,
distinguished only by its message prefix. -/
theorem error_kinds_single_class (path cause : String) (r : RefData) :
    load_main_data (fun _ => .error cause) path =
      .error (.AnnotationError
        ("Error loading main data file \x27" ++ path ++ "\x27: " ++ cause)) ∧
    load_and_preprocess_ref (fun _ => .error cause) normalizeTotalOp log1pOp path =
      .error (.AnnotationError
        ("Error loading reference file \x27" ++ path ++ "\x27: " ++ cause)) ∧
    load_and_preprocess_ref (fun _ => .ok r) (fun _ => .error cause) log1pOp path =
      .error (.AnnotationError
        ("Error during reference data preprocessing: " ++ cause)) :=
  ⟨rfl, rfl, rfl⟩
